import Mathlib

/-!
Shallow embedding of the logicGate camera classifier app.

The embedded code is the capture/preprocess/infer/publish pipeline and the
live-loop lifecycle of `src/App.js` (with the near-identical variants in
`src/unnamed/part_000` and `src/unnamed/part_001`).  Pure computations
(label lookup, ranking) are Lean functions; the React refs and state
(`modelRef`, `liveRef`, `webLoopRef`, `nativeLoopRef`, `predictions`,
`photoUri`, console output) are an explicit `AppState` record, and each
handler is a state transformer.  External effects (camera capture, image
decoding, the model's `predict`) enter as parameters describing their
outcome.  Tensor lifetimes are tracked as a list of live tensor ids:
tensor-allocating operations append fresh ids and `tf.dispose` / the exit
of a `tf.tidy` scope removes them.  Probabilities are modelled as `ℚ`.
-/

/-- One entry of the published prediction list: the JS object
`{ className, probability }` built by the loops. -/
structure Prediction where
  className : String
  probability : ℚ
deriving DecidableEq, Repr

/-- the configured label list of `src/App.js`:
`const LABELS = ['OR', 'AND', 'NOT'];`. -/
def LABELS : List String := ["OR", "AND", "NOT"]

/-- Label lookup used when building predictions.  This models the JS
expression `LABELS[i] || `class_${i}``, where `LABELS[i]` is `undefined`
for an out-of-range index and JS treats both `undefined` and the empty
string as falsy, so either yields the synthesized placeholder. -/
def jsLabelAt (labels : List String) (i : ℕ) : String :=
  match labels.get? i with
  | some s => if s = "" then "class_" ++ toString i else s
  | none => "class_" ++ toString i

/-- Insertion step of the stable descending sort: the new element passes
over every element whose probability is greater than or equal to its own
(so among equal probabilities, earlier elements stay first) and is placed
before the first strictly smaller one. -/
def insertByProb (x : Prediction) : List Prediction → List Prediction
  | [] => [x]
  | y :: ys =>
    if y.probability < x.probability then x :: y :: ys
    else y :: insertByProb x ys

/-- Model of `arr.sort((a, b) => b.probability - a.probability)`:
ECMAScript `Array.prototype.sort` is guaranteed stable, and with this
comparator `a` precedes `b` exactly when `a.probability > b.probability`,
ties keeping their original order.  The fold inserts the elements in
their original order, each after all already-placed equal elements. -/
def jsSortByProbDesc (l : List Prediction) : List Prediction :=
  l.foldl (fun acc x => insertByProb x acc) []

/-- Model of `data.map((p, i) => ({ className: ..., probability: p }))`:
map with the element index, starting from `i`. -/
def mapWithIdx (f : ℕ → ℚ → Prediction) : ℕ → List ℚ → List Prediction
  | _, [] => []
  | i, p :: ps => f i p :: mapWithIdx f (i + 1) ps

/-- The ranking step shared by both loops and the snapshot handler
(`src/App.js` lines 161-164, 211-214, 322-325, 351-354;
`predictFromTensor` in `src/unnamed/part_000` lines 180-183):
`const arr = probs.map((p, i) => ({ className: LABELS[i] || `class_${i}`,
probability: p })); arr.sort((a, b) => b.probability - a.probability);`. -/
def rankResults (labels : List String) (data : List ℚ) : List Prediction :=
  jsSortByProbDesc
    (mapWithIdx (fun i p => { className := jsLabelAt labels i, probability := p }) 0 data)

/-- A prediction list is sorted non-increasing by probability. -/
def sortedDesc (l : List Prediction) : Prop :=
  List.Pairwise (fun a b => b.probability ≤ a.probability) l

/-- State of the app component: the React refs and state cells read and
written by the loops and handlers of `src/App.js`.  Tensor ids and
scheduling-handle ids are drawn from the `nextId` counter; `liveTensors`
is the set of tensors currently allocated and not yet disposed; `log`
collects every `console.warn` / `console.error` emission. -/
structure AppState where
  /-- modelRef.current : the loaded model handle, if any -/
  model : Option ℕ
  /-- modelLoading React state -/
  modelLoading : Bool
  /-- liveRef.current.running : the mutable flag the loops consult -/
  running : Bool
  /-- liveRunning React state (mirrors running, for the UI) -/
  liveRunning : Bool
  /-- predictions React state: the published RankedResult -/
  predictions : List Prediction
  /-- photoUri React state -/
  photoUri : Option String
  /-- webLoopRef.current.rafId -/
  webRafId : Option ℕ
  /-- webLoopRef.current.lastRun (a Date.now() timestamp) -/
  webLastRun : ℤ
  /-- webLoopRef.current.frameIntervalMs -/
  webInterval : ℤ
  /-- nativeLoopRef.current.timeoutId -/
  nativeTimeoutId : Option ℕ
  /-- fresh-id source for tensors and scheduling handles -/
  nextId : ℕ
  /-- ids of currently allocated, undisposed tensors -/
  liveTensors : List ℕ
  /-- everything written to the console so far -/
  log : List String
deriving DecidableEq, Repr

/-- Model of `tf.dispose([...])` on the tensor ledger: every listed id is
removed from the live set. -/
def disposeTensors (live : List ℕ) (ids : List ℕ) : List ℕ :=
  live.filter (fun t => decide (t ∉ ids))

/-- `stopLive` (`src/unnamed/part_000` lines 318-323; the unmount cleanup
of `src/App.js` lines 78-84 performs the same steps): clear the running
flag and mirror state, cancel the pending animation frame and the pending
timeout. -/
def stopLive (s : AppState) : AppState :=
  { s with running := false, liveRunning := false,
           webRafId := none, nativeTimeoutId := none }

/-- One native-loop iteration, `runNativeLoop` of `src/App.js` lines
181-224 (`src/unnamed/part_000` lines 235-269 is the same shape with the
prediction step factored through `predictFromTensor`).

The iteration guard `if (!cameraRef.current || !modelRef.current) return;`
is the entry test; `cameraAvail` stands for `cameraRef.current`.  The
only suspension point of the body is `await takePictureAsync`, so a
`stopLive` racing with an in-flight iteration is modelled by running this
function on the post-stop state: `s` is the state observed when the
capture resolves, and `s.running` is the flag value every later read

sees.  `uri` and `decodeOk` describe the capture and decode outcomes
(`decodeOk = false` covers both a decode exception, caught and logged by
the inner catch, and a null decoder); `predictThrows` makes
`modelRef.current.predict` (or the data extraction) inside `tf.tidy`
throw; `data` is the extracted probability vector, `none` when neither
output shape exposes `dataSync` so `out` stays null.

Tensor ledger: `imageTensor`, `resized` and `normalized` are allocated
outside `tf.tidy`; the model output is allocated inside the tidy scope
and reclaimed by it on both normal and exceptional exit; the explicit
`tf.dispose([imageTensor, resized, normalized])` on line 210 runs only
when the tidy call returns normally, since a throw jumps to the outer
catch.  The finally block re-arms the next timeout only when
`liveRef.current.running` still holds. -/
def runNativeIter (s : AppState) (cameraAvail : Bool) (uri : String)
    (decodeOk : Bool) (predictThrows : Bool) (data : Option (List ℚ)) : AppState :=
  if !cameraAvail || s.model.isNone then s
  else
    let s1 := { s with photoUri := some uri }
    let s2 :=
      if decodeOk = false then
        { s1 with log := s1.log ++ ["native: cannot decode image to tensor"] }
      else
        let tImg := s1.nextId
        let tRes := s1.nextId + 1
        let tNorm := s1.nextId + 2
        let tOut := s1.nextId + 3
        let sA := { s1 with nextId := s1.nextId + 4,
                            liveTensors := s1.liveTensors ++ [tImg, tRes, tNorm] }
        if predictThrows then
          { sA with log := sA.log ++ ["runNativeLoop error"] }
        else
          let sB := { sA with liveTensors := sA.liveTensors ++ [tOut] }
          let sC := { sB with liveTensors := disposeTensors sB.liveTensors [tOut] }
          let sD := { sC with liveTensors := disposeTensors sC.liveTensors [tImg, tRes, tNorm] }
          match data with
          | some d => { sD with predictions := rankResults LABELS d }
          | none => sD
    if s2.running then
      { s2 with nativeTimeoutId := some s2.nextId, nextId := s2.nextId + 1 }
    else s2

/-- One firing of the web-loop `step` callback, `runWebLoop` of
`src/App.js` lines 138-169 (`src/unnamed/part_000` lines 189-222 is
identical up to the interval constant).  The callback re-arms the next
animation frame first and unconditionally, then compares `Date.now()`
against the last executed run: if the frame interval has not elapsed it
returns without any further work; otherwise it stamps `lastRun` and runs
the capture-preprocess-infer-publish pipeline entirely inside `tf.tidy`
(so no tensor survives it, on success or throw).  `now` is the
`Date.now()` reading; `data` is the extracted probability vector (`none`
also covers the `!videoRef.current || !modelRef.current` skip, which
happens after the stamp and publishes nothing); `predictThrows` routes
the pipeline into `catch`, which only warns.  The returned Bool tells
whether the throttle gate was passed, i.e. whether this firing did the
expensive work. -/
def webStep (s : AppState) (now : ℤ) (data : Option (List ℚ))
    (predictThrows : Bool) : AppState × Bool :=
  let s0 := { s with webRafId := some s.nextId, nextId := s.nextId + 1 }
  if now - s0.webLastRun < s0.webInterval then (s0, false)
  else
    let s1 := { s0 with webLastRun := now }
    if predictThrows then
      ({ s1 with log := s1.log ++ ["webLoop predict error"] }, true)
    else
      match data with
      | some d => ({ s1 with predictions := rankResults LABELS d }, true)
      | none => (s1, true)

/-- A run of the web loop over a list of animation-frame timestamps,
recording for each firing whether the throttled work executed.  The
capture/inference outcome is irrelevant to the scheduling behaviour, so
the trace drives every firing with no extracted data and no throw. -/
def webTrace (s : AppState) : List ℤ → List (ℤ × Bool)
  | [] => []
  | t :: ts =>
    let r := webStep s t none false
    (t, r.2) :: webTrace r.1 ts

/-- The timestamps of the firings that actually executed the work. -/
def workedTimes : List (ℤ × Bool) → List ℤ
  | [] => []
  | (t, true) :: tr => t :: workedTimes tr
  | (_, false) :: tr => workedTimes tr

/-- `startLiveInternal` of `src/App.js` lines 234-253 (`startLive` of
`src/unnamed/part_000` lines 279-316 adds camera-availability pre-checks
before the same model check and loop dispatch).  Returns the new state
and the function's boolean result.  `loadResult` is the value the awaited
`loadModel()` call would produce if it is invoked (its net effect on the
state, when it succeeds, is storing the handle in `modelRef.current`);
`web` selects the platform branch.  On the web branch the frame interval
is set to 180 and `runWebLoop()` arms the first animation frame; on the
native branch `runNativeLoop()` starts with an awaited capture, so no
state change happens synchronously. -/
def startLiveInternal (s : AppState) (web : Bool) (loadResult : Option ℕ) :
    AppState × Bool :=
  if s.running then (s, true)
  else
    let s0 :=
      match s.model with
      | some _ => s
      | none =>
        match loadResult with
        | some h => { s with model := some h }
        | none => s
    match s0.model with
    | none => (s0, false)
    | some _ =>
      let s1 := { s0 with running := true, liveRunning := true }
      if web then
        ({ s1 with webInterval := 180, webRafId := some s1.nextId,
                   nextId := s1.nextId + 1 }, true)
      else (s1, true)

/-- `handleSnapshot` of `src/App.js` lines 296-358 (the Snapshot onPress
closure of `src/unnamed/part_000` lines 394-448 is the same flow).  The
handler first ensures the model is loaded (`loadResult` abstracts the
awaited `loadModel()` call) and returns if it still is not.  On web it
requires the video element (`videoAvail`), stores the canvas data URL as
the photo, and runs the whole classification inside `tf.tidy`.  On
native it requires the camera ref, stores the captured uri, decodes
(`decodeOk`), allocates the resize/normalize tensors, predicts inside
`tf.tidy`, disposes the intermediates, and publishes.  `data` is the
extracted probability vector of either branch, `none` when extraction
produced null (or, on native, when decode failed). -/
def handleSnapshot (s : AppState) (web : Bool) (loadResult : Option ℕ)
    (videoAvail cameraAvail : Bool) (uri : String) (decodeOk : Bool)
    (data : Option (List ℚ)) : AppState :=
  let s0 :=
    match s.model with
    | some _ => s
    | none =>
      match loadResult with
      | some h => { s with model := some h }
      | none => s
  match s0.model with
  | none => s0
  | some _ =>
    if web then
      if videoAvail = false then s0
      else
        let s1 := { s0 with photoUri := some uri }
        match data with
        | some d => { s1 with predictions := rankResults LABELS d }
        | none => s1
    else
      if cameraAvail = false then s0
      else
        let s1 := { s0 with photoUri := some uri }
        if decodeOk = false then s1
        else
          let tImg := s1.nextId
          let tR := s1.nextId + 1
          let tNorm := s1.nextId + 2
          let s2 := { s1 with nextId := s1.nextId + 3,
                              liveTensors := s1.liveTensors ++ [tImg, tR, tNorm] }
          let s3 := { s2 with liveTensors := disposeTensors s2.liveTensors [tImg, tR, tNorm] }
          match data with
          | some d => { s3 with predictions := rankResults LABELS d }
          | none => s3

/-- State of the model loader, `loadModel` of `src/App.js` lines 95-134
(`src/unnamed/part_000` lines 117-165): `modelRef.current` and the
`modelLoading` flag. -/
structure LoaderState where
  model : Option ℕ
  modelLoading : Bool
deriving DecidableEq, Repr

/-- What a single invocation of `loadModel` does synchronously before its
first await: either it hits the guard
`if (modelRef.current || modelLoading) return modelRef.current;` and
returns the current handle value at once, or it sets the loading flag and
begins the asynchronous load. -/
inductive LoadCallOutcome where
  | returned (h : Option ℕ)
  | startsLoad
deriving DecidableEq, Repr

/-- The synchronous prefix of `loadModel`. -/
def loadModelCall (s : LoaderState) : LoaderState × LoadCallOutcome :=
  if s.model.isSome || s.modelLoading then (s, LoadCallOutcome.returned s.model)
  else ({ s with modelLoading := true }, LoadCallOutcome.startsLoad)

/-- Completion of an in-flight load: on success the handle is stored in
`modelRef.current` and returned; on failure null is returned; the finally
block clears the loading flag either way. -/
def loadModelResolve (s : LoaderState) (loaded : Option ℕ) :
    LoaderState × Option ℕ :=
  match loaded with
  | some h => ({ s with model := some h, modelLoading := false }, some h)
  | none => ({ s with modelLoading := false }, none)

/-- Two concurrent `loadModel` calls: caller 1 arrives on the unloaded
state, caller 2 arrives while caller 1's load is in flight, then the load
resolves with handle `h`.  Result: caller 1's resolved value, caller 2's
returned value, and how many underlying loads were started. -/
def concurrentLoadRun (h : ℕ) : Option ℕ × Option ℕ × ℕ :=
  let s0 : LoaderState := { model := none, modelLoading := false }
  let c1 := loadModelCall s0
  let c2 := loadModelCall c1.1
  let started :=
    (if c1.2 = LoadCallOutcome.startsLoad then 1 else 0) +
    (if c2.2 = LoadCallOutcome.startsLoad then 1 else 0)
  let r1 := (loadModelResolve c2.1 (some h)).2
  let r2 := match c2.2 with
    | LoadCallOutcome.returned v => v
    | LoadCallOutcome.startsLoad => none
  (r1, r2, started)

/-- A quiescent state with the model loaded: used to instantiate the
theorems below at concrete inputs. -/
def sBase : AppState :=
  { model := some 1, modelLoading := false, running := false, liveRunning := false,
    predictions := [], photoUri := none, webRafId := none, webLastRun := 0,
    webInterval := 180, nativeTimeoutId := none, nextId := 10, liveTensors := [],
    log := [] }

/-- The state while the native live loop runs. -/
def sLive : AppState :=
  { sBase with running := true, liveRunning := true, nativeTimeoutId := some 5 }

/-- A state without a loaded model. -/
def sNoModel : AppState := { sBase with model := none }

/-! Lemmas about the stable descending sort. -/

theorem insertByProb_perm (x : Prediction) :
    ∀ l : List Prediction, List.Perm (insertByProb x l) (x :: l)
  | [] => by simp [insertByProb]
  | y :: ys => by
    by_cases hc : y.probability < x.probability
    · rw [insertByProb, if_pos hc]
    · rw [insertByProb, if_neg hc]
      exact ((insertByProb_perm x ys).cons y).trans (List.Perm.swap x y ys)

theorem mem_insertByProb {z x : Prediction} {l : List Prediction} :
    z ∈ insertByProb x l ↔ z = x ∨ z ∈ l := by
  rw [(insertByProb_perm x l).mem_iff, List.mem_cons]

theorem insertByProb_sorted (x : Prediction) :
    ∀ l : List Prediction, sortedDesc l → sortedDesc (insertByProb x l)
  | [], _ => by simp [insertByProb, sortedDesc]
  | y :: ys, h => by
    rcases List.pairwise_cons.mp h with ⟨hy, hys⟩
    by_cases hc : y.probability < x.probability
    · rw [insertByProb, if_pos hc]
      refine List.pairwise_cons.mpr ⟨?_, h⟩
      intro z hz
      rcases List.mem_cons.mp hz with rfl | hz
      · exact le_of_lt hc
      · exact le_trans (hy z hz) (le_of_lt hc)
    · rw [insertByProb, if_neg hc]
      refine List.pairwise_cons.mpr ⟨?_, insertByProb_sorted x ys hys⟩
      intro z hz
      rcases mem_insertByProb.mp hz with rfl | hz
      · exact not_lt.mp hc
      · exact hy z hz

theorem filter_prob_eq_nil {q : ℚ} {y : Prediction} {ys : List Prediction}
    (h : sortedDesc (y :: ys)) (hlt : y.probability < q) :
    (y :: ys).filter (fun p => decide (p.probability = q)) = [] := by
  apply List.filter_eq_nil_iff.mpr
  intro a ha
  simp only [decide_eq_true_eq]
  rcases List.mem_cons.mp ha with rfl | ha
  · exact ne_of_lt hlt
  · have := (List.pairwise_cons.mp h).1 a ha
    exact ne_of_lt (lt_of_le_of_lt this hlt)

theorem insertByProb_filter (q : ℚ) (x : Prediction) :
    ∀ l : List Prediction, sortedDesc l →
    (insertByProb x l).filter (fun p => decide (p.probability = q)) =
      l.filter (fun p => decide (p.probability = q)) ++
        (if x.probability = q then [x] else [])
  | [], _ => by
    by_cases hx : x.probability = q <;> simp [insertByProb, hx]
  | y :: ys, h => by
    rcases List.pairwise_cons.mp h with ⟨hy, hys⟩
    by_cases hc : y.probability < x.probability
    · rw [insertByProb, if_pos hc]
      by_cases hx : x.probability = q
      · have hnil : (y :: ys).filter (fun p => decide (p.probability = q)) = [] :=
          filter_prob_eq_nil h (hx ▸ hc)
        simp [List.filter_cons, hx, hnil]
      · simp [List.filter_cons, hx]
    · rw [insertByProb, if_neg hc]
      rw [List.filter_cons, List.filter_cons]
      by_cases hy' : y.probability = q <;>
        simp [hy', insertByProb_filter q x ys hys]

theorem foldl_insert_sorted :
    ∀ (l acc : List Prediction), sortedDesc acc →
      sortedDesc (l.foldl (fun a x => insertByProb x a) acc)
  | [], _, h => h
  | x :: l, acc, h => by
    rw [List.foldl_cons]
    exact foldl_insert_sorted l _ (insertByProb_sorted x acc h)

theorem foldl_insert_filter (q : ℚ) :
    ∀ (l acc : List Prediction), sortedDesc acc →
      (l.foldl (fun a x => insertByProb x a) acc).filter
          (fun p => decide (p.probability = q)) =
        acc.filter (fun p => decide (p.probability = q)) ++
          l.filter (fun p => decide (p.probability = q))
  | [], acc, _ => by simp
  | x :: l, acc, h => by
    rw [List.foldl_cons, foldl_insert_filter q l _ (insertByProb_sorted x acc h),
      insertByProb_filter q x acc h, List.filter_cons]
    by_cases hx : x.probability = q <;> simp [hx]

theorem foldl_insert_perm :
    ∀ (l acc : List Prediction),
      List.Perm (l.foldl (fun a x => insertByProb x a) acc) (acc ++ l)
  | [], acc => by simp
  | x :: l, acc => by
    rw [List.foldl_cons]
    refine (foldl_insert_perm l (insertByProb x acc)).trans ?_
    refine (((insertByProb_perm x acc).append_right l).trans ?_)
    exact List.perm_middle.symm

theorem jsSortByProbDesc_sorted (l : List Prediction) :
    sortedDesc (jsSortByProbDesc l) :=
  foldl_insert_sorted l [] (List.Pairwise.nil)

theorem jsSortByProbDesc_filter (q : ℚ) (l : List Prediction) :
    (jsSortByProbDesc l).filter (fun p => decide (p.probability = q)) =
      l.filter (fun p => decide (p.probability = q)) := by
  rw [jsSortByProbDesc, foldl_insert_filter q l [] List.Pairwise.nil]
  simp

theorem jsSortByProbDesc_perm (l : List Prediction) :
    List.Perm (jsSortByProbDesc l) l :=
  foldl_insert_perm l []

/-! Lemmas about the web-loop throttle. -/

theorem chain_gap_all (t : ℤ) :
    ∀ ts : List ℤ, List.Chain' (fun a b : ℤ => a + 200 ≤ b) (t :: ts) →
      ∀ x ∈ ts, t + 200 ≤ x
  | [], _, x, hx => absurd hx (List.not_mem_nil x)
  | y :: ts, h, x, hx => by
    rcases List.chain'_cons.mp h with ⟨hty, hrest⟩
    rcases List.mem_cons.mp hx with rfl | hx
    · exact hty
    · have := chain_gap_all y ts hrest x hx
      omega

theorem filter_length_mono (p q : ℤ → Bool) :
    ∀ l : List ℤ, (∀ x ∈ l, p x = true → q x = true) →
      (l.filter p).length ≤ (l.filter q).length
  | [], _ => le_refl 0
  | x :: l, h => by
    have ih := filter_length_mono p q l (fun y hy => h y (List.mem_cons_of_mem x hy))
    rw [List.filter_cons, List.filter_cons]
    by_cases hp : p x = true
    · rw [if_pos hp, if_pos (h x (List.mem_cons_self x l) hp)]
      simpa using ih
    · rw [if_neg hp]
      by_cases hq : q x = true
      · rw [if_pos hq]
        exact le_trans ih (by simp)
      · rw [if_neg hq]
        exact ih

theorem chain_gap_window :
    ∀ ts : List ℤ, List.Chain' (fun a b : ℤ => a + 200 ≤ b) ts →
      ∀ (T : ℤ) (n : ℕ),
        (ts.filter (fun t => decide (T ≤ t ∧ t < T + 200 * (n : ℤ)))).length ≤ n
  | [], _, T, n => by simp
  | t :: ts, h, T, n => by
    have hts : List.Chain' (fun a b : ℤ => a + 200 ≤ b) ts := h.tail
    have hall := chain_gap_all t ts h
    rw [List.filter_cons]
    by_cases hc : (T ≤ t ∧ t < T + 200 * (n : ℤ))
    · rw [if_pos (by simpa using hc)]
      match n with
      | 0 => omega
      | Nat.succ m =>
        have hmono : (ts.filter (fun x => decide (T ≤ x ∧ x < T + 200 * ((Nat.succ m : ℕ) : ℤ)))).length ≤
            (ts.filter (fun x => decide (t + 200 ≤ x ∧ x < (t + 200) + 200 * (m : ℤ)))).length := by
          apply filter_length_mono
          intro x hx hpx
          have hgap := hall x hx
          simp only [decide_eq_true_eq] at hpx ⊢
          push_cast at hpx ⊢
          omega
        have := chain_gap_window ts hts (t + 200) m
        simp only [List.length_cons]
        omega
    · rw [if_neg (by simpa using hc)]
      exact chain_gap_window ts hts T n

theorem webStep_webInterval (s : AppState) (now : ℤ) (data : Option (List ℚ))
    (pt : Bool) : ((webStep s now data pt).1).webInterval = s.webInterval := by
  rw [webStep]
  by_cases hc : now - s.webLastRun < s.webInterval
  · simp [hc]
  · cases pt
    · cases data <;> simp [hc]
    · simp [hc]

theorem webStep_skip (s : AppState) (now : ℤ) (data : Option (List ℚ)) (pt : Bool)
    (hc : now - s.webLastRun < s.webInterval) :
    (webStep s now data pt).2 = false
    ∧ ((webStep s now data pt).1).webLastRun = s.webLastRun := by
  rw [webStep]
  simp [hc]

theorem webStep_work (s : AppState) (now : ℤ) (data : Option (List ℚ)) (pt : Bool)
    (hc : ¬ now - s.webLastRun < s.webInterval) :
    (webStep s now data pt).2 = true
    ∧ ((webStep s now data pt).1).webLastRun = now := by
  rw [webStep]
  cases pt
  · cases data <;> simp [hc]
  · simp [hc]

theorem webTrace_chain :
    ∀ (ts : List ℤ) (s : AppState), 0 ≤ s.webInterval →
      List.Chain' (fun a b : ℤ => a + s.webInterval ≤ b)
          (workedTimes (webTrace s ts))
      ∧ ∀ x ∈ workedTimes (webTrace s ts), s.webLastRun + s.webInterval ≤ x
  | [], s, _ => by simp [webTrace, workedTimes]
  | t :: ts, s, hI => by
    rw [webTrace]
    by_cases hc : t - s.webLastRun < s.webInterval
    · rcases webStep_skip s t none false hc with ⟨hb, hlast⟩
      rw [hb, workedTimes]
      have hI' : 0 ≤ ((webStep s t none false).1).webInterval := by
        rw [webStep_webInterval]; exact hI
      have ih := webTrace_chain ts (webStep s t none false).1 hI'
      rw [webStep_webInterval] at ih
      rw [hlast] at ih
      exact ih
    · rcases webStep_work s t none false hc with ⟨hb, hlast⟩
      rw [hb, workedTimes]
      have hI' : 0 ≤ ((webStep s t none false).1).webInterval := by
        rw [webStep_webInterval]; exact hI
      have ih := webTrace_chain ts (webStep s t none false).1 hI'
      rw [webStep_webInterval] at ih
      rw [hlast] at ih
      have hhead : s.webLastRun + s.webInterval ≤ t := by omega
      constructor
      · refine List.chain'_cons'.mpr ⟨?_, ih.1⟩
        intro y hy
        have hmem : y ∈ workedTimes (webTrace (webStep s t none false).1 ts) :=
          List.mem_of_mem_head? hy
        exact ih.2 y hmem
      · intro x hx
        rcases List.mem_cons.mp hx with rfl | hx
        · exact hhead
        · have := ih.2 x hx
          omega

theorem filter_worked (P : ℤ → Bool) :
    ∀ tr : List (ℤ × Bool),
      (tr.filter (fun x => x.2 && P x.1)).length = ((workedTimes tr).filter P).length
  | [] => rfl
  | (t, b) :: tr => by
    cases b
    · simp [workedTimes, List.filter_cons, filter_worked P tr]
    · by_cases hp : P t = true <;>
        simp [workedTimes, List.filter_cons, hp, filter_worked P tr]

theorem disposeTensors_append (L ids : List ℕ) (h : ∀ t ∈ L, t ∉ ids) :
    disposeTensors (L ++ ids) ids = L := by
  rw [disposeTensors, List.filter_append]
  have h1 : L.filter (fun t => decide (t ∉ ids)) = L :=
    List.filter_eq_self.mpr (fun a ha => by simpa using h a ha)
  have h2 : ids.filter (fun t => decide (t ∉ ids)) = [] :=
    List.filter_eq_nil_iff.mpr (fun a ha => by simp [ha])
  rw [h1, h2, List.append_nil]

theorem ledger_roundtrip (L : List ℕ) (a : ℕ) (h : ∀ t ∈ L, t < a) :
    disposeTensors (disposeTensors (L ++ [a, a + 1, a + 2, a + 3]) [a + 3])
        [a, a + 1, a + 2] = L := by
  have e1 : L ++ [a, a + 1, a + 2, a + 3] = (L ++ [a, a + 1, a + 2]) ++ [a + 3] := by
    simp
  have h1 : disposeTensors ((L ++ [a, a + 1, a + 2]) ++ [a + 3]) [a + 3]
      = L ++ [a, a + 1, a + 2] := by
    apply disposeTensors_append
    intro t ht
    rcases List.mem_append.mp ht with ht | ht
    · have := h t ht
      simp only [List.mem_singleton]
      omega
    · simp only [List.mem_cons, List.mem_singleton, List.not_mem_nil, or_false] at ht
      simp only [List.mem_singleton]
      omega
  have h2 : disposeTensors (L ++ [a, a + 1, a + 2]) [a, a + 1, a + 2] = L := by
    apply disposeTensors_append
    intro t ht
    have := h t ht
    simp only [List.mem_cons, List.not_mem_nil, or_false]
    omega
  rw [e1, h1, h2]

/-!
The claims.
-/

/-- C5: every RankedResult produced from a model probability vector is
sorted non-increasing by probability; entries with equal probability keep
the original model-output index order (stability: for every probability
value, the sub-sequence of entries carrying that value is exactly the
corresponding sub-sequence of the index-order list built by the map step
before sorting); and labels ["OR","AND","NOT"] with model output
[0.7, 0.2, 0.1] yield [{OR,0.7},{AND,0.2},{NOT,0.1}]. -/
theorem C5_rank_sorted_stable :
    (∀ (labels : List String) (data : List ℚ), sortedDesc (rankResults labels data))
  ∧ (∀ (labels : List String) (data : List ℚ) (q : ℚ),
      (rankResults labels data).filter (fun p => decide (p.probability = q)) =
        (mapWithIdx (fun i p => { className := jsLabelAt labels i, probability := p }) 0
            data).filter (fun p => decide (p.probability = q)))
  ∧ rankResults LABELS [7/10, 2/10, 1/10] =
      [⟨"OR", 7/10⟩, ⟨"AND", 2/10⟩, ⟨"NOT", 1/10⟩] := by
  refine ⟨fun labels data => jsSortByProbDesc_sorted _,
    fun labels data q => jsSortByProbDesc_filter q _, ?_⟩
  norm_num [rankResults, jsSortByProbDesc, mapWithIdx, insertByProb, jsLabelAt, LABELS]
  decide

/-- C6: the stream-mode loop self-throttles.  Every firing of the step
callback re-arms the next animation frame, even when it skips; the
expensive work runs exactly when the elapsed time since the last
executed iteration has reached the frame interval; and with the interval
set to 200 ms, any 1-second window [T, T+1000) contains at most 5
executed iterations of any trace of animation-frame timestamps. -/
theorem C6_stream_throttle :
    (∀ (s : AppState) (now : ℤ) (data : Option (List ℚ)) (pt : Bool),
        ((webStep s now data pt).1).webRafId.isSome = true)
  ∧ (∀ (s : AppState) (now : ℤ) (data : Option (List ℚ)) (pt : Bool),
        (webStep s now data pt).2 = decide (s.webInterval ≤ now - s.webLastRun))
  ∧ (∀ (s : AppState) (ts : List ℤ) (T : ℤ),
        ((webTrace { s with webInterval := 200 } ts).filter
            (fun x => x.2 && decide (T ≤ x.1 ∧ x.1 < T + 1000))).length ≤ 5) := by
  refine ⟨?_, ?_, ?_⟩
  · intro s now data pt
    rw [webStep]
    by_cases hc : now - s.webLastRun < s.webInterval
    · simp [hc]
    · cases pt
      · cases data <;> simp [hc]
      · simp [hc]
  · intro s now data pt
    by_cases hc : now - s.webLastRun < s.webInterval
    · rw [(webStep_skip s now data pt hc).1]
      symm
      simp only [decide_eq_false_iff_not]
      omega
    · rw [(webStep_work s now data pt hc).1]
      symm
      simp only [decide_eq_true_eq]
      omega
  · intro s ts T
    have hfw := filter_worked (fun t => decide (T ≤ t ∧ t < T + 1000))
      (webTrace { s with webInterval := 200 } ts)
    have hchain := (webTrace_chain ts { s with webInterval := 200 } (by norm_num)).1
    have hbound := chain_gap_window _ hchain T 5
    have h1000 : (200 : ℤ) * ((5 : ℕ) : ℤ) = 1000 := by norm_num
    simp only [h1000] at hbound
    exact hfw.trans_le hbound

/-- C1: the claim that every call made while a load is in flight resolves
to the handle produced by that load is false: in the two-concurrent-call
scenario, exactly one underlying load starts, the initiating caller
resolves to the loaded handle 7, but the second caller returns
immediately with the current (null) handle instead of awaiting the
in-flight load. -/
theorem C1_counterexample :
    concurrentLoadRun 7 = (some 7, none, 1)
  ∧ ¬ ((concurrentLoadRun 7).2.1 = some 7) := by
  constructor
  · decide
  · decide

/-- C1 (amended): concurrent calls are collapsed — a call made while a
load is already in flight starts no second load and returns immediately
with the current handle value (null while the first load has not yet
resolved) rather than awaiting the in-flight attempt; in the
two-concurrent-call scenario exactly one underlying load is performed and
only the initiating caller resolves to the loaded handle. -/
theorem C1_amended :
    (∀ s : LoaderState, s.modelLoading = true →
        loadModelCall s = (s, LoadCallOutcome.returned s.model))
  ∧ (∀ h : ℕ, concurrentLoadRun h = (some h, none, 1)) := by
  constructor
  · intro s h
    rw [loadModelCall, if_pos]
    rw [h, Bool.or_true]
  · intro h
    simp [concurrentLoadRun, loadModelCall, loadModelResolve]

/-- C1 witness: the amended theorem applied to the in-flight loader state
with no handle yet: the call starts no second load and returns null. -/
theorem C1_amended_witness :
    (LoaderState.mk none true).modelLoading = true
  ∧ loadModelCall (LoaderState.mk none true)
      = (LoaderState.mk none true, LoadCallOutcome.returned none) :=
  ⟨rfl, C1_amended.1 (LoaderState.mk none true) rfl⟩

/-- C9: the synthesized placeholder label applies to any falsy configured
label, not only to out-of-range indices: when the configured label at an
in-range index is the empty string, the lookup yields the placeholder,
and the prediction built for that index carries it. -/
theorem C9_falsy_label_placeholder :
    (∀ (labels : List String) (i : ℕ), labels.get? i = some "" →
        jsLabelAt labels i = "class_" ++ toString i)
  ∧ rankResults ["OR", "", "NOT"] [5/10, 3/10, 2/10]
      = [⟨"OR", 5/10⟩, ⟨"class_1", 3/10⟩, ⟨"NOT", 2/10⟩] := by
  constructor
  · intro labels i h
    rw [jsLabelAt, h]
    simp
  · norm_num [rankResults, jsSortByProbDesc, mapWithIdx, insertByProb, jsLabelAt]
    decide

/-- C9 witness: the empty string configured at index 1 of
["OR","","NOT"], an in-range index, yields the placeholder class_1. -/
theorem C9_witness :
    (["OR", "", "NOT"] : List String).get? 1 = some ""
  ∧ jsLabelAt ["OR", "", "NOT"] 1 = "class_" ++ toString 1 :=
  ⟨rfl, C9_falsy_label_placeholder.1 ["OR", "", "NOT"] 1 rfl⟩

/-- C4: the claim fails on its diagnostic conjunct.  Feeding a 4-value
model output through the web-loop work step with the 3 configured labels
synthesizes the fourth prediction {class_3, 0.4} and the pipeline
completes, but the console log — the code's only diagnostic channel — is
left empty: no ConfigMismatch diagnostic is emitted at all, rather than
exactly once. -/
theorem C4_counterexample :
    ((webStep sBase 1000 (some [1/10, 2/10, 3/10, 4/10]) false).1).log = []
  ∧ Prediction.mk "class_3" (4/10) ∈
      ((webStep sBase 1000 (some [1/10, 2/10, 3/10, 4/10]) false).1).predictions := by
  have hstep : ((webStep sBase 1000 (some [1/10, 2/10, 3/10, 4/10]) false).1).log = sBase.log
      ∧ ((webStep sBase 1000 (some [1/10, 2/10, 3/10, 4/10]) false).1).predictions
        = rankResults LABELS [1/10, 2/10, 3/10, 4/10] := by
    rw [webStep]
    norm_num [sBase]
  refine ⟨hstep.1, ?_⟩
  rw [hstep.2]
  norm_num [rankResults, jsSortByProbDesc, mapWithIdx, insertByProb, jsLabelAt, LABELS]
  decide

/-- C4 (amended): when the model output has more entries than the label
list, every out-of-range index receives the synthesized placeholder
label, the pipeline completes without failing (the 4-value output against
3 labels publishes {class_3, 0.4} as the top prediction), but no
diagnostic is emitted: the work step leaves the console log unchanged on
every non-throwing run. -/
theorem C4_amended :
    (∀ (labels : List String) (i : ℕ), labels.length ≤ i →
        jsLabelAt labels i = "class_" ++ toString i)
  ∧ (∀ (s : AppState) (now : ℤ) (data : Option (List ℚ)),
        ((webStep s now data false).1).log = s.log)
  ∧ ((webStep sBase 1000 (some [1/10, 2/10, 3/10, 4/10]) false).1).predictions
      = [⟨"class_3", 4/10⟩, ⟨"NOT", 3/10⟩, ⟨"AND", 2/10⟩, ⟨"OR", 1/10⟩] := by
  refine ⟨?_, ?_, ?_⟩
  · intro labels i h
    rw [jsLabelAt, List.get?_eq_none.mpr h]
  · intro s now data
    rw [webStep]
    by_cases hc : now - s.webLastRun < s.webInterval
    · simp [hc]
    · cases data <;> simp [hc]
  · rw [webStep]
    norm_num [sBase, rankResults, jsSortByProbDesc, mapWithIdx, insertByProb,
      jsLabelAt, LABELS]
    decide

/-- C4 witness: the amended theorem applied at index 3 against the three
configured labels. -/
theorem C4_amended_witness :
    LABELS.length ≤ 3 ∧ jsLabelAt LABELS 3 = "class_" ++ toString 3 :=
  ⟨by decide, C4_amended.1 LABELS 3 (by decide)⟩

/-- C2: the claim that an iteration in flight when stop() is called
publishes nothing is false.  Stopping the live session while the capture
await of a native iteration is pending clears the running flag, yet when
the iteration resumes it still writes the prediction result: the
published predictions change from the empty pre-stop list to the ranked
output of the stopped-mid-flight frame, because only the re-arm — not
the publish — is guarded by the running flag. -/
theorem C2_counterexample :
    ¬ ((runNativeIter (stopLive sLive) true "u" true false
          (some [7/10, 2/10, 1/10])).predictions
        = (stopLive sLive).predictions) := by
  have h1 : (runNativeIter (stopLive sLive) true "u" true false
      (some [7/10, 2/10, 1/10])).predictions = rankResults LABELS [7/10, 2/10, 1/10] := by
    simp [runNativeIter, stopLive, sLive, sBase, disposeTensors]
  have h2 : rankResults LABELS [7/10, 2/10, 1/10] =
      [⟨"OR", 7/10⟩, ⟨"AND", 2/10⟩, ⟨"NOT", 1/10⟩] := by
    norm_num [rankResults, jsSortByProbDesc, mapWithIdx, insertByProb, jsLabelAt, LABELS]
    decide
  rw [h1, h2]
  simp [stopLive, sLive, sBase]

/-- C2 (amended): an iteration that completes after stop() does not
re-arm the next iteration — the running flag is checked immediately
before re-arming, so the timer handle is unchanged — but it does not
discard its result: the photo is stored and, whenever the frame decoded
and predict succeeded with extractable data, the prediction result is
still published, because neither write is guarded by the running flag. -/
theorem C2_amended (s : AppState) (uri : String) (decodeOk predictThrows : Bool)
    (data : Option (List ℚ)) (h : s.running = false) :
    (runNativeIter s true uri decodeOk predictThrows data).nativeTimeoutId
      = s.nativeTimeoutId
  ∧ (s.model.isSome = true → decodeOk = true → predictThrows = false →
      ∀ d : List ℚ, data = some d →
        (runNativeIter s true uri decodeOk predictThrows data).predictions
          = rankResults LABELS d) := by
  constructor
  · rw [runNativeIter]
    by_cases hm : s.model.isNone
    · simp [hm]
    · cases decodeOk
      · simp [hm, h]
      · cases predictThrows
        · cases data <;> simp [hm, h]
        · simp [hm, h]
  · intro hm hd hp d hdata
    subst hdata
    subst hd
    subst hp
    rw [runNativeIter]
    have hm' : s.model.isNone = false := by
      cases hmm : s.model
      · rw [hmm] at hm
        simp at hm
      · simp [hmm]
    simp [hm', h]

/-- C2 witness: the amended theorem applied to the stopped state reached
by calling stopLive while a native iteration was awaiting its capture. -/
theorem C2_amended_witness :
    (stopLive sLive).running = false
  ∧ ((runNativeIter (stopLive sLive) true "w" true false
        (some [1])).nativeTimeoutId = (stopLive sLive).nativeTimeoutId
    ∧ ((stopLive sLive).model.isSome = true → true = true → false = false →
        ∀ d : List ℚ, (some [1] : Option (List ℚ)) = some d →
          (runNativeIter (stopLive sLive) true "w" true false
              (some [1])).predictions = rankResults LABELS d)) :=
  ⟨rfl, C2_amended (stopLive sLive) "w" true false (some [1]) rfl⟩

/-- C3: the claim that every intermediate tensor is released on every
code path, including a throwing predict, is false.  Running a native
iteration on a state with an empty tensor ledger, with a decodable frame
but a predict call that throws inside tf.tidy, leaves the decoded,
resized and normalized tensors (ids 10, 11, 12) allocated after the call
returns: the tf.dispose line is skipped when the throw jumps to the
outer catch. -/
theorem C3_counterexample :
    (runNativeIter sLive true "u" true true none).liveTensors = [10, 11, 12]
  ∧ sLive.liveTensors = [] := by
  constructor
  · simp [runNativeIter, sLive, sBase]
  · rfl

/-- C3 (amended): on every path where predict and data extraction do not
throw — success, extraction returning null, decode failure, and the
guard return — every intermediate tensor allocated during the native
iteration is released before the call returns; but when predict throws,
the decoded, resized and normalized tensors allocated before the tidy
scope are leaked, extending the ledger by exactly those three ids. -/
theorem C3_amended (s : AppState) (cameraAvail : Bool) (uri : String)
    (decodeOk : Bool) (data : Option (List ℚ))
    (hfresh : ∀ t ∈ s.liveTensors, t < s.nextId) :
    (runNativeIter s cameraAvail uri decodeOk false data).liveTensors = s.liveTensors
  ∧ (cameraAvail = true → s.model.isSome = true →
      (runNativeIter s cameraAvail uri true true data).liveTensors
        = s.liveTensors ++ [s.nextId, s.nextId + 1, s.nextId + 2]) := by
  constructor
  · rw [runNativeIter]
    by_cases hg : (!cameraAvail || s.model.isNone) = true
    · simp [hg]
    · have hrt := ledger_roundtrip s.liveTensors s.nextId hfresh
      by_cases hr : s.running = true <;> cases decodeOk <;> cases data <;>
        simp [hg, hrt, hr]
  · intro hcam hm
    subst hcam
    have hm' : s.model.isNone = false := by
      cases hmm : s.model
      · rw [hmm] at hm
        simp at hm
      · simp [hmm]
    rw [runNativeIter]
    by_cases hr : s.running = true <;> simp [hm', hr]

/-- C3 witness: the amended theorem applied to the quiescent loaded
state, whose tensor ledger is empty and therefore fresh. -/
theorem C3_amended_witness :
    (∀ t ∈ sBase.liveTensors, t < sBase.nextId)
  ∧ ((runNativeIter sBase true "u" true false (some [1])).liveTensors
        = sBase.liveTensors
    ∧ (true = true → sBase.model.isSome = true →
        (runNativeIter sBase true "u" true true (some [1])).liveTensors
          = sBase.liveTensors ++ [sBase.nextId, sBase.nextId + 1, sBase.nextId + 2])) :=
  ⟨by simp [sBase], C3_amended sBase true "u" true (some [1]) (by simp [sBase])⟩

/-- C8: a per-iteration decode failure or a throwing predict is confined
to that iteration: the failure is logged, no prediction result is
published (the publication slot of the spec is the predictions state and
it is left unchanged), the running flag is untouched, and the next
iteration is still scheduled — the finally block re-arms a fresh timeout
because the session is still running. -/
theorem C8_iteration_failure_confined (s : AppState) (uri : String)
    (data : Option (List ℚ)) (hm : s.model.isSome = true) (hr : s.running = true) :
    ((runNativeIter s true uri false false data).predictions = s.predictions
      ∧ (runNativeIter s true uri false false data).running = s.running
      ∧ (runNativeIter s true uri false false data).log
          = s.log ++ ["native: cannot decode image to tensor"]
      ∧ (runNativeIter s true uri false false data).nativeTimeoutId.isSome = true)
  ∧ ((runNativeIter s true uri true true data).predictions = s.predictions
      ∧ (runNativeIter s true uri true true data).running = s.running
      ∧ (runNativeIter s true uri true true data).log
          = s.log ++ ["runNativeLoop error"]
      ∧ (runNativeIter s true uri true true data).nativeTimeoutId.isSome = true) := by
  have hm' : s.model.isNone = false := by
    cases hmm : s.model
    · rw [hmm] at hm
      simp at hm
    · simp [hmm]
  constructor
  · rw [runNativeIter]
    simp [hm', hr]
  · rw [runNativeIter]
    simp [hm', hr]

/-- C8 witness: the confinement theorem applied to the running live
state. -/
theorem C8_witness :
    (sLive.model.isSome = true ∧ sLive.running = true)
  ∧ (((runNativeIter sLive true "w" false false none).predictions = sLive.predictions
      ∧ (runNativeIter sLive true "w" false false none).running = sLive.running
      ∧ (runNativeIter sLive true "w" false false none).log
          = sLive.log ++ ["native: cannot decode image to tensor"]
      ∧ (runNativeIter sLive true "w" false false none).nativeTimeoutId.isSome = true)
    ∧ ((runNativeIter sLive true "w" true true none).predictions = sLive.predictions
      ∧ (runNativeIter sLive true "w" true true none).running = sLive.running
      ∧ (runNativeIter sLive true "w" true true none).log
          = sLive.log ++ ["runNativeLoop error"]
      ∧ (runNativeIter sLive true "w" true true none).nativeTimeoutId.isSome = true)) :=
  ⟨⟨rfl, rfl⟩, C8_iteration_failure_confined sLive "w" none rfl rfl⟩

/-- C7: calling start while the live session is already running is a
no-op — the state, including the running flag and both scheduling
handles, is returned unchanged with success — and when no model is
cached and loading fails, the start fails: the session stays idle with
the running flag false, no animation frame and no timeout is ever
scheduled, and the call reports failure. -/
theorem C7_start_noop_and_fail_idle :
    (∀ (s : AppState) (web : Bool) (r : Option ℕ),
        s.running = true → startLiveInternal s web r = (s, true))
  ∧ (∀ (s : AppState) (web : Bool),
        s.running = false → s.model = none →
        ((startLiveInternal s web none).1.running = false
          ∧ (startLiveInternal s web none).1.webRafId = s.webRafId
          ∧ (startLiveInternal s web none).1.nativeTimeoutId = s.nativeTimeoutId
          ∧ (startLiveInternal s web none).2 = false)) := by
  constructor
  · intro s web r h
    rw [startLiveInternal.eq_def, if_pos h]
  · intro s web hrun hmod
    rw [startLiveInternal.eq_def]
    simp [hrun, hmod]

/-- C7 witness: the theorem applied to the running live state (first
part) and to the idle state with no model and a failing load (second
part). -/
theorem C7_witness :
    (sLive.running = true ∧ startLiveInternal sLive true none = (sLive, true))
  ∧ (sNoModel.running = false ∧ sNoModel.model = none
    ∧ ((startLiveInternal sNoModel false none).1.running = false
        ∧ (startLiveInternal sNoModel false none).1.webRafId = sNoModel.webRafId
        ∧ (startLiveInternal sNoModel false none).1.nativeTimeoutId
            = sNoModel.nativeTimeoutId
        ∧ (startLiveInternal sNoModel false none).2 = false)) :=
  ⟨⟨rfl, C7_start_noop_and_fail_idle.1 sLive true none rfl⟩,
    ⟨rfl, rfl, C7_start_noop_and_fail_idle.2 sNoModel false rfl rfl⟩⟩

/-- C10: the one-shot snapshot handler never modifies the live-session
scheduling state: for every invocation — live loop running or stopped,
web or native, model cached or freshly loaded or unavailable, decode
succeeding or failing — the running flag, its UI mirror, the animation
frame handle, the web throttle bookkeeping, and the native timeout
handle are all unchanged afterwards. -/
theorem C10_snapshot_preserves_loop_state (s : AppState) (web : Bool)
    (loadResult : Option ℕ) (videoAvail cameraAvail : Bool) (uri : String)
    (decodeOk : Bool) (data : Option (List ℚ)) :
    (handleSnapshot s web loadResult videoAvail cameraAvail uri decodeOk data).running
        = s.running
  ∧ (handleSnapshot s web loadResult videoAvail cameraAvail uri decodeOk data).liveRunning
        = s.liveRunning
  ∧ (handleSnapshot s web loadResult videoAvail cameraAvail uri decodeOk data).webRafId
        = s.webRafId
  ∧ (handleSnapshot s web loadResult videoAvail cameraAvail uri decodeOk data).webLastRun
        = s.webLastRun
  ∧ (handleSnapshot s web loadResult videoAvail cameraAvail uri decodeOk data).webInterval
        = s.webInterval
  ∧ (handleSnapshot s web loadResult videoAvail cameraAvail uri decodeOk data).nativeTimeoutId
        = s.nativeTimeoutId := by
  rw [handleSnapshot.eq_def]
  cases hmm : s.model <;> cases loadResult <;> cases web <;> cases videoAvail <;>
    cases cameraAvail <;> cases decodeOk <;> cases data <;> simp [hmm]
